import Mathlib

/-!
Verification of the configuration drift detection and classification engine
(`tools/drift-detection/drift_comparator.py`).

The Python module is shallowly embedded: Python dict/list/str/bool/None values
become the inductive type `Value`; dicts are association lists (Python dicts
have unique keys; `List.lookup` takes the first binding, which coincides).
The source iterates `set(baseline.keys()) | set(running.keys())`, whose
iteration order CPython leaves unspecified (hash-seed dependent); the
embedding fixes a deterministic first-occurrence order (`List.dedup` of the
concatenated key lists).  No claim proved below depends on that choice.

Python's cross-type numeric equality (`True == 1`) is not modelled: `Value`
equality is structural.  No claim exercises bool/int mixing.
-/

namespace DriftDetection

/-- Embedded Python value: None, bool, str, int, list, dict. -/
inductive Value where
  | null
  | bool (b : Bool)
  | str (s : String)
  | int (n : Int)
  | list (xs : List Value)
  | dict (fields : List (String × Value))

mutual
/-- Structural (Python `==`) equality on embedded values. -/
def beqV : Value → Value → Bool
  | .null, .null => true
  | .bool x, .bool y => x == y
  | .str x, .str y => x == y
  | .int x, .int y => x == y
  | .list xs, .list ys => beqVL xs ys
  | .dict xs, .dict ys => beqVD xs ys
  | _, _ => false

/-- Elementwise equality of embedded lists. -/
def beqVL : List Value → List Value → Bool
  | [], [] => true
  | x :: xs, y :: ys => beqV x y && beqVL xs ys
  | _, _ => false

/-- Entrywise equality of embedded dicts (association lists). -/
def beqVD : List (String × Value) → List (String × Value) → Bool
  | [], [] => true
  | (k1, v1) :: xs, (k2, v2) :: ys => k1 == k2 && beqV v1 v2 && beqVD xs ys
  | _, _ => false
end

mutual
theorem beqV_iff : ∀ a b : Value, beqV a b = true ↔ a = b
  | .null, .null => by simp [beqV]
  | .null, .bool _ => by simp [beqV]
  | .null, .str _ => by simp [beqV]
  | .null, .int _ => by simp [beqV]
  | .null, .list _ => by simp [beqV]
  | .null, .dict _ => by simp [beqV]
  | .bool _, .null => by simp [beqV]
  | .bool x, .bool y => by simp [beqV]
  | .bool _, .str _ => by simp [beqV]
  | .bool _, .int _ => by simp [beqV]
  | .bool _, .list _ => by simp [beqV]
  | .bool _, .dict _ => by simp [beqV]
  | .str _, .null => by simp [beqV]
  | .str _, .bool _ => by simp [beqV]
  | .str x, .str y => by simp [beqV]
  | .str _, .int _ => by simp [beqV]
  | .str _, .list _ => by simp [beqV]
  | .str _, .dict _ => by simp [beqV]
  | .int _, .null => by simp [beqV]
  | .int _, .bool _ => by simp [beqV]
  | .int _, .str _ => by simp [beqV]
  | .int x, .int y => by simp [beqV]
  | .int _, .list _ => by simp [beqV]
  | .int _, .dict _ => by simp [beqV]
  | .list _, .null => by simp [beqV]
  | .list _, .bool _ => by simp [beqV]
  | .list _, .str _ => by simp [beqV]
  | .list _, .int _ => by simp [beqV]
  | .list xs, .list ys => by simp [beqV, beqVL_iff xs ys]
  | .list _, .dict _ => by simp [beqV]
  | .dict _, .null => by simp [beqV]
  | .dict _, .bool _ => by simp [beqV]
  | .dict _, .str _ => by simp [beqV]
  | .dict _, .int _ => by simp [beqV]
  | .dict _, .list _ => by simp [beqV]
  | .dict xs, .dict ys => by simp [beqV, beqVD_iff xs ys]

theorem beqVL_iff : ∀ xs ys : List Value, beqVL xs ys = true ↔ xs = ys
  | [], [] => by simp [beqVL]
  | [], _ :: _ => by simp [beqVL]
  | _ :: _, [] => by simp [beqVL]
  | x :: xs, y :: ys => by
      simp [beqVL, beqV_iff x y, beqVL_iff xs ys]

theorem beqVD_iff : ∀ xs ys : List (String × Value), beqVD xs ys = true ↔ xs = ys
  | [], [] => by simp [beqVD]
  | [], _ :: _ => by simp [beqVD]
  | _ :: _, [] => by simp [beqVD]
  | (k1, v1) :: xs, (k2, v2) :: ys => by
      simp [beqVD, beqV_iff v1 v2, beqVD_iff xs ys, Prod.ext_iff, and_assoc]
end

instance : DecidableEq Value := fun a b => decidable_of_iff (beqV a b = true) (beqV_iff a b)

mutual
/-- Size of an embedded value, used as recursion fuel. -/
def sizeV : Value → Nat
  | .null => 1
  | .bool _ => 1
  | .str _ => 1
  | .int _ => 1
  | .list xs => 1 + sizeVL xs
  | .dict kvs => 1 + sizeVD kvs

/-- Size of an embedded list. -/
def sizeVL : List Value → Nat
  | [] => 1
  | x :: xs => 1 + sizeV x + sizeVL xs

/-- Size of an embedded dict (association list). -/
def sizeVD : List (String × Value) → Nat
  | [] => 1
  | (_, v) :: kvs => 1 + sizeV v + sizeVD kvs
end

/-! ### Python string primitives (over `List Char`, so they evaluate in the kernel) -/

/-- Python `s.startswith(p)`. -/
def strStarts (s p : String) : Bool := p.data.isPrefixOf s.data

/-- Python `pat in s` (contiguous substring test). -/
def strContainsSub (s pat : String) : Bool := s.data.tails.any fun t => pat.data.isPrefixOf t

/-- Python `s.lower()` (ASCII best effort; only compared against `true`/`false`). -/
def strLower (s : String) : String := ⟨s.data.map Char.toLower⟩

/-- Python `s.isdigit()` (restricted to the decimal digits; the source only
meets ASCII tags). -/
def strIsDigit (s : String) : Bool := !s.data.isEmpty && s.data.all Char.isDigit

/-- Python `s[n:]` (character based). -/
def strDropChars (s : String) (n : Nat) : String := ⟨s.data.drop n⟩

/-- Python `s[:n]` (character based). -/
def strTakeChars (s : String) (n : Nat) : String := ⟨s.data.take n⟩

/-- Python `s.split(sep, 1)[1]` for a single-char separator, assuming the
separator occurs (the source only calls it behind a `startswith` guard). -/
def strAfterFirst (s : String) (sep : Char) : String :=
  ⟨(s.data.dropWhile (· ≠ sep)).drop 1⟩

/-- Python `s.split(sep)[0]` for a single-char separator. -/
def strBeforeFirst (s : String) (sep : Char) : String :=
  ⟨s.data.takeWhile (· ≠ sep)⟩

/-- Python `", ".join(parts)`. -/
def joinComma : List String → String
  | [] => ""
  | p :: ps => ps.foldl (fun acc q => acc ++ ", " ++ q) p

/-- Python `str(value)` / `repr(value)` (flag `reprMode`), fueled so that it
evaluates in the kernel; `sizeOf` fuel always suffices.  Used for the
interpolations in drift descriptions and for `classify_field_severity`'s
`str(...)` casts. -/
def pyStrF : Nat → Bool → Value → String
  | 0, _, _ => ""
  | _ + 1, _, .null => "None"
  | _ + 1, _, .bool b => if b then "True" else "False"
  | _ + 1, reprMode, .str s => if reprMode then "\x27" ++ s ++ "\x27" else s
  | _ + 1, _, .int n => toString n
  | fuel + 1, _, .list xs => "[" ++ joinComma (xs.map (pyStrF fuel true)) ++ "]"
  | fuel + 1, _, .dict kvs =>
      "\x7b" ++ joinComma (kvs.map fun kv => "\x27" ++ kv.1 ++ "\x27: " ++ pyStrF fuel true kv.2) ++ "\x7d"

/-- Python `str(value)`. -/
def pyStr (v : Value) : String := pyStrF (sizeV v) false v

/-! ### Data model (`DriftSeverity`, `DriftItem`, `ServiceDrift`, `DriftReport`) -/

/-- Classification of drift severity (`class DriftSeverity(Enum)`). -/
inductive DriftSeverity where
  | breaking
  | functional
  | cosmetic
  | informational
deriving DecidableEq

/-- Individual configuration drift item (`@dataclass DriftItem`). -/
structure DriftItem where
  field_path : String
  baseline_value : Value
  running_value : Value
  severity : DriftSeverity
  description : String
deriving DecidableEq

/-- Drift analysis for a single service/container (`@dataclass ServiceDrift`). -/
structure ServiceDrift where
  service_name : String
  stack_name : Option String
  container_id : Option String
  has_drift : Bool
  drift_items : List DriftItem
  matched : Bool
  baseline_missing : Bool := false
  container_missing : Bool := false
deriving DecidableEq

/-- Complete drift analysis report (`@dataclass DriftReport`). -/
structure DriftReport where
  timestamp : String
  services_analyzed : Nat
  services_with_drift : Nat
  total_drift_items : Nat
  service_drifts : List ServiceDrift
  baseline_host : Option String := none
  baseline_repo : Option String := none
deriving DecidableEq

/-! ### DriftComparator -/

/-- Fields to ignore during comparison (`DriftComparator.EPHEMERAL_FIELDS`).
A Python set; only membership is used. -/
def EPHEMERAL_FIELDS : List String := ["container_id", "created", "started", "compose_file"]

/-- `DriftComparator.normalize_value`: empty string and None normalize to
None; `"true"`/`"false"` (case-insensitive) strings normalize to booleans. -/
def normalize_value : Value → Value
  | .null => .null
  | .str s =>
      if s = "" then .null
      else if strLower s = "true" then .bool true
      else if strLower s = "false" then .bool false
      else .str s
  | v => v

/-- The inner `parse_image` helper of `DriftComparator.compare_images`:
split on the last `:` (`image.rsplit(':', 1)`), missing tag defaults to
`latest`. -/
def parse_image (image : String) : String × String :=
  if strContainsSub image ":" then
    let rev := image.data.reverse
    (⟨((rev.dropWhile (· ≠ ':')).drop 1).reverse⟩, ⟨(rev.takeWhile (· ≠ ':')).reverse⟩)
  else
    (image, "latest")

/-- The leading dot-segment of a tag
(`tag.split('.')[0] if '.' in tag else tag` in `compare_images`). -/
def major_segment (tag : String) : String :=
  if strContainsSub tag "." then strBeforeFirst tag '.' else tag

/-- `DriftComparator.compare_images`: compare image specifications and
determine severity; returns `(has_drift, severity)`. -/
def compare_images (baseline_image running_image : String) : Bool × DriftSeverity :=
  if baseline_image = running_image then (false, .informational)
  else
    let p1 := parse_image baseline_image
    let p2 := parse_image running_image
    let baseline_name := p1.1
    let baseline_tag := p1.2
    let running_name := p2.1
    let running_tag := p2.2
    if baseline_name ≠ running_name then (true, .breaking)
    else if baseline_tag ≠ running_tag then
      if baseline_tag ≠ "latest" ∧ running_tag = "latest" then (true, .breaking)
      else
        if major_segment baseline_tag ≠ major_segment running_tag ∧
            strIsDigit (major_segment baseline_tag) ∧ strIsDigit (major_segment running_tag) then
          (true, .breaking)
        else (true, .functional)
    else (false, .informational)

/-- The fixed critical-prefix set of `DriftComparator.classify_field_severity`
(a Python set; only `startswith` scans are used). -/
def critical_env_vars : List String :=
  ["DATABASE_URL", "DB_HOST", "DB_PORT", "REDIS_URL", "REDIS_HOST",
   "API_KEY", "API_URL", "VPN_", "TUNNEL_"]

/-- `DriftComparator.classify_field_severity`: severity of a field-level
drift as a pure function of `(field_path, baseline_value, running_value)`,
with the source's branch order: image, environment, ports, volumes/mounts,
networks, labels, default. -/
def classify_field_severity (field_path : String) (baseline_value running_value : Value) :
    DriftSeverity :=
  if field_path = "image" then
    (compare_images (pyStr baseline_value) (pyStr running_value)).2
  else if strStarts field_path "environment." then
    let env_var := strAfterFirst field_path '.'
    if critical_env_vars.any (fun critical => strStarts env_var critical) then .breaking
    else .functional
  else if strContainsSub field_path "ports" then .functional
  else if strContainsSub field_path "volumes" || strContainsSub field_path "mounts" then .functional
  else if strContainsSub field_path "networks" then .functional
  else if strStarts field_path "labels." then
    let label_key := strAfterFirst field_path '.'
    if strStarts label_key "traefik.http.routers" || strStarts label_key "traefik.http.services" then
      .functional
    else .cosmetic
  else .functional

/-- Python `d.get(key)` on an embedded dict (None when absent). -/
def dictGet (d : List (String × Value)) (k : String) : Value :=
  (List.lookup k d).getD .null

/-- The keys of an embedded dict. -/
def keysOf (d : List (String × Value)) : List String := d.map Prod.fst

/-- `set(baseline.keys()) | set(running.keys())` of `deep_compare`.  CPython
iterates this set in an unspecified (hash-seed dependent) order; the
embedding fixes the deterministic order `List.dedup` gives. -/
def allKeys (b r : List (String × Value)) : List String :=
  (keysOf b ++ keysOf r).dedup

/-- The per-key body of `deep_compare` after normalization: both None → skip;
exactly one None → missing-field item; two dicts → recurse (through
`recur`); two lists → whole-sequence equality; otherwise direct equality. -/
def compareVals (recur : List (String × Value) → List (String × Value) → String → List DriftItem)
    (current_path : String) (baseline_val running_val : Value) : List DriftItem :=
  match baseline_val, running_val with
  | .null, .null => []
  | .null, rv =>
      [⟨current_path, .null, rv, classify_field_severity current_path .null rv,
        "Field \x27" ++ current_path ++ "\x27: present in running (" ++ pyStr rv ++
          ") but missing in baseline"⟩]
  | bv, .null =>
      [⟨current_path, bv, .null, classify_field_severity current_path bv .null,
        "Field \x27" ++ current_path ++ "\x27: present in baseline (" ++ pyStr bv ++
          ") but missing in running"⟩]
  | .dict bd, .dict rd => recur bd rd current_path
  | .list bl, .list rl =>
      if bl = rl then []
      else
        [⟨current_path, .list bl, .list rl,
          classify_field_severity current_path (.list bl) (.list rl),
          "List \x27" ++ current_path ++ "\x27 differs between baseline and running"⟩]
  | bv, rv =>
      if bv = rv then []
      else
        [⟨current_path, bv, rv, classify_field_severity current_path bv rv,
          "Field \x27" ++ current_path ++ "\x27 changed from \x27" ++ pyStr bv ++
            "\x27 to \x27" ++ pyStr rv ++ "\x27"⟩]

/-- One loop iteration of `deep_compare` for a single key: skip ephemeral
fields, extend the dot path, normalize both sides, then `compareVals`. -/
def keyItems (recur : List (String × Value) → List (String × Value) → String → List DriftItem)
    (b r : List (String × Value)) (path k : String) : List DriftItem :=
  if k ∈ EPHEMERAL_FIELDS then []
  else
    let current_path := if path = "" then k else path ++ "." ++ k
    compareVals recur current_path (normalize_value (dictGet b k)) (normalize_value (dictGet r k))

/-- The `for key in all_keys` loop of `deep_compare`. -/
def goKeys (recur : List (String × Value) → List (String × Value) → String → List DriftItem)
    (b r : List (String × Value)) (path : String) : List String → List DriftItem
  | [] => []
  | k :: ks => keyItems recur b r path k ++ goKeys recur b r path ks

/-- Fueled recursion skeleton of `DriftComparator.deep_compare`.  The
recursion of the source is on nested sub-dicts obtained by lookup; fuel
`sizeVD b + sizeVD r` always suffices (each nesting level strictly shrinks
the combined size, see `deep_compare_fuel_congr`). -/
def deepCompareFuel : Nat → List (String × Value) → List (String × Value) → String → List DriftItem
  | 0, _, _, _ => []
  | fuel + 1, b, r, path => goKeys (deepCompareFuel fuel) b r path (allKeys b r)

/-- `DriftComparator.deep_compare`: recursively compare two configuration
dicts, returning the list of `DriftItem`s. -/
def deep_compare (baseline running : List (String × Value)) (path : String) : List DriftItem :=
  deepCompareFuel (sizeVD baseline + sizeVD running) baseline running path

/-! ### Orchestrator inputs (`ContainerInfo` from docker_inspector.py,
`GitBaselineConfig` from git_config_loader.py) -/

/-- Structured container information (`@dataclass ContainerInfo`). -/
structure ContainerInfo where
  container_id : String
  name : String
  image : String
  status : String
  labels : List (String × String)
  networks : Value
  volumes : List Value
  environment : List (String × String)
  ports : Value
  created : String
  started : Option String
deriving DecidableEq

/-- `ContainerInfo.to_dict` (`asdict(self)`): field order of the dataclass. -/
def ContainerInfo.to_dict (c : ContainerInfo) : List (String × Value) :=
  [("container_id", .str c.container_id),
   ("name", .str c.name),
   ("image", .str c.image),
   ("status", .str c.status),
   ("labels", .dict (c.labels.map fun kv => (kv.1, .str kv.2))),
   ("networks", c.networks),
   ("volumes", .list c.volumes),
   ("environment", .dict (c.environment.map fun kv => (kv.1, .str kv.2))),
   ("ports", c.ports),
   ("created", .str c.created),
   ("started", match c.started with | some s => .str s | none => .null)]

/-- Baseline configuration from the git repository
(`@dataclass GitBaselineConfig`). -/
structure GitBaselineConfig where
  name : String
  image : String
  labels : List (String × String)
  networks : Value
  volumes : List Value
  environment : List (String × String)
  ports : List Value
  stack_name : String
  compose_file : String
deriving DecidableEq

/-- `GitBaselineConfig.to_dict`: the explicit dict literal of the source. -/
def GitBaselineConfig.to_dict (b : GitBaselineConfig) : List (String × Value) :=
  [("name", .str b.name),
   ("image", .str b.image),
   ("labels", .dict (b.labels.map fun kv => (kv.1, .str kv.2))),
   ("networks", b.networks),
   ("volumes", .list b.volumes),
   ("environment", .dict (b.environment.map fun kv => (kv.1, .str kv.2))),
   ("ports", .list b.ports),
   ("stack_name", .str b.stack_name),
   ("compose_file", .str b.compose_file)]

attribute [irreducible] ContainerInfo.to_dict GitBaselineConfig.to_dict

/-! ### Orchestration (`match_container_to_baseline`, `compare_configurations`) -/

/-- The stack-prefix matching rule of `match_container_to_baseline`:
`container_name.startswith(f"{baseline.stack_name}_")` and the remainder
after that prefix equals `baseline.name`. -/
def stack_prefix_match (container_name : String) (b : GitBaselineConfig) : Bool :=
  strStarts container_name (b.stack_name ++ "_") &&
    strDropChars container_name (b.stack_name.length + 1) == b.name

/-- `DriftComparator.match_container_to_baseline`: first scan for an exact
name match, then for a stack-prefix match; `none` if neither succeeds. -/
def match_container_to_baseline (container_name : String) (baselines : List GitBaselineConfig) :
    Option GitBaselineConfig :=
  match baselines.find? (fun b => b.name == container_name) with
  | some b => some b
  | none => baselines.find? (fun b => stack_prefix_match container_name b)

/-- The `ServiceDrift` emitted by `compare_configurations` for a running
container with no git baseline (`baseline_missing=True`). -/
def baselineMissingSD (container : ContainerInfo) : ServiceDrift :=
  ⟨container.name, none, some (strTakeChars container.container_id 12),
    true, [], false, true, false⟩

/-- The `ServiceDrift` emitted by `compare_configurations` for a matched
pair; `drift_items` is the result of `deep_compare` on the two `to_dict`s
(passed in by `runningPass`), `has_drift = len(drift_items) > 0`. -/
def matchedSD (container : ContainerInfo) (baseline : GitBaselineConfig)
    (drift_items : List DriftItem) : ServiceDrift :=
  ⟨container.name, some baseline.stack_name, some (strTakeChars container.container_id 12),
    !drift_items.isEmpty, drift_items, true, false, false⟩

/-- The `ServiceDrift` emitted by `compare_configurations` for a baseline
whose container is not running (`container_missing=True`). -/
def containerMissingSD (baseline : GitBaselineConfig) : ServiceDrift :=
  ⟨baseline.name, some baseline.stack_name, none, true, [], false, false, true⟩

/-- First phase of `compare_configurations` (the `for container in
running_containers` loop): returns the emitted `ServiceDrift`s, the
services-with-drift count, the total drift-item count, and the set of
matched baseline names (a Python set, modelled with duplicate-free
`List.insert`). -/
def runningPass : List ContainerInfo → List GitBaselineConfig → List String →
    List ServiceDrift × Nat × Nat × List String
  | [], _, matched_baselines => ([], 0, 0, matched_baselines)
  | container :: rest, git_baselines, matched_baselines =>
    match match_container_to_baseline container.name git_baselines with
    | none =>
        let acc := runningPass rest git_baselines matched_baselines
        (baselineMissingSD container :: acc.1, acc.2.1 + 1, acc.2.2.1, acc.2.2.2)
    | some baseline =>
        let sd := matchedSD container baseline (deep_compare baseline.to_dict container.to_dict "")
        let acc := runningPass rest git_baselines (matched_baselines.insert baseline.name)
        (sd :: acc.1,
          (if sd.has_drift then acc.2.1 + 1 else acc.2.1),
          (if sd.has_drift then acc.2.2.1 + sd.drift_items.length else acc.2.2.1),
          acc.2.2.2)

/-- Second phase of `compare_configurations` (the `for baseline in
git_baselines` loop): a `ServiceDrift` with `container_missing` for every
baseline whose name was never matched, plus the drift count they add. -/
def missingPass : List GitBaselineConfig → List String → List ServiceDrift × Nat
  | [], _ => ([], 0)
  | baseline :: rest, matched_baselines =>
      if baseline.name ∈ matched_baselines then missingPass rest matched_baselines
      else
        let acc := missingPass rest matched_baselines
        (containerMissingSD baseline :: acc.1, acc.2 + 1)

/-- `DriftComparator.compare_configurations`.  The source stamps the report
with `datetime.utcnow().isoformat()`; the clock value is taken here as the
explicit `timestamp` argument to keep the function pure.  `services_analyzed`
is `len(running_containers) + len(git_baselines) - len(matched_baselines)`. -/
def compare_configurations (timestamp : String) (running_containers : List ContainerInfo)
    (git_baselines : List GitBaselineConfig) : DriftReport :=
  let first := runningPass running_containers git_baselines []
  let matched_baselines := first.2.2.2
  let second := missingPass git_baselines matched_baselines
  { timestamp := timestamp
    services_analyzed :=
      running_containers.length + git_baselines.length - matched_baselines.length
    services_with_drift := first.2.1 + second.2
    total_drift_items := first.2.2.1
    service_drifts := first.1 ++ second.1
    baseline_host := none
    baseline_repo := none }

/-! ### Structural lemmas about `deep_compare` -/

theorem compareVals_self (recur : List (String × Value) → List (String × Value) → String → List DriftItem)
    (hrec : ∀ d p, recur d d p = []) (cp : String) (v : Value) :
    compareVals recur cp v v = [] := by
  cases v <;> simp [compareVals, hrec]

theorem goKeys_self (recur) (hrec : ∀ d p, recur d d p = []) (b : List (String × Value))
    (path : String) : ∀ ks, goKeys recur b b path ks = [] := by
  intro ks
  induction ks with
  | nil => rfl
  | cons k ks ih =>
      simp [goKeys, ih, keyItems]
      intro _
      exact compareVals_self recur hrec _ _

theorem deepCompareFuel_self : ∀ (fuel : Nat) (b : List (String × Value)) (path : String),
    deepCompareFuel fuel b b path = [] := by
  intro fuel
  induction fuel with
  | zero => intro b path; rfl
  | succ fuel ih =>
      intro b path
      simp only [deepCompareFuel]
      exact goKeys_self _ (fun d p => ih d p) b path _

theorem compareVals_length_symm (recur)
    (hrec : ∀ d e p, (recur d e p).length = (recur e d p).length)
    (cp : String) (bv rv : Value) :
    (compareVals recur cp bv rv).length = (compareVals recur cp rv bv).length := by
  cases bv <;> cases rv <;>
    simp only [compareVals, List.length_cons, List.length_nil] <;>
    first
      | rfl
      | exact hrec _ _ _
      | (rename_i x y
         by_cases h : x = y <;> simp [h, eq_comm])

theorem keyItems_length_symm (recur)
    (hrec : ∀ d e p, (recur d e p).length = (recur e d p).length)
    (b r : List (String × Value)) (path k : String) :
    (keyItems recur b r path k).length = (keyItems recur r b path k).length := by
  unfold keyItems
  split
  · rfl
  · exact compareVals_length_symm recur hrec _ _ _

theorem goKeys_length (recur) (b r : List (String × Value)) (path : String) (ks : List String) :
    (goKeys recur b r path ks).length =
      (ks.map fun k => (keyItems recur b r path k).length).sum := by
  induction ks with
  | nil => rfl
  | cons k ks ih => simp [goKeys, ih]

theorem allKeys_perm (b r : List (String × Value)) : (allKeys b r).Perm (allKeys r b) :=
  (List.perm_append_comm).dedup

theorem deepCompareFuel_length_symm : ∀ (fuel : Nat) (b r : List (String × Value)) (path : String),
    (deepCompareFuel fuel b r path).length = (deepCompareFuel fuel r b path).length := by
  intro fuel
  induction fuel with
  | zero => intro b r path; rfl
  | succ fuel ih =>
      intro b r path
      simp only [deepCompareFuel, goKeys_length]
      have hmap : ∀ k, (keyItems (deepCompareFuel fuel) b r path k).length =
          (keyItems (deepCompareFuel fuel) r b path k).length :=
        fun k => keyItems_length_symm _ (fun d e p => ih d e p) b r path k
      calc ((allKeys b r).map fun k => (keyItems (deepCompareFuel fuel) b r path k).length).sum
          = ((allKeys b r).map fun k => (keyItems (deepCompareFuel fuel) r b path k).length).sum := by
            simp only [hmap]
        _ = ((allKeys r b).map fun k => (keyItems (deepCompareFuel fuel) r b path k).length).sum :=
            ((allKeys_perm b r).map _).sum_eq

theorem deep_compare_length_symm (a b : List (String × Value)) (path : String) :
    (deep_compare a b path).length = (deep_compare b a path).length := by
  unfold deep_compare
  rw [Nat.add_comm (sizeVD a) (sizeVD b)]
  exact deepCompareFuel_length_symm _ a b path

theorem sizeVD_pos (d : List (String × Value)) : 1 ≤ sizeVD d := by
  cases d with
  | nil => simp [sizeVD]
  | cons kv t => cases kv; simp [sizeVD]; omega

theorem lookup_sizeV_lt : ∀ (d : List (String × Value)) (k : String) (v : Value),
    List.lookup k d = some v → sizeV v < sizeVD d := by
  intro d
  induction d with
  | nil => intro k v h; simp [List.lookup] at h
  | cons kv t ih =>
      intro k v h
      obtain ⟨a, b⟩ := kv
      simp [List.lookup] at h
      split at h
      · cases h
        simp [sizeVD]
        omega
      · have := ih k v h
        simp [sizeVD]
        omega

theorem dictGet_dict (b : List (String × Value)) (k : String) (bd : List (String × Value))
    (h : dictGet b k = .dict bd) : List.lookup k b = some (.dict bd) := by
  unfold dictGet at h
  cases hl : List.lookup k b with
  | none => rw [hl] at h; simp at h
  | some v => rw [hl] at h; simp at h; rw [h]

theorem normalize_value_dict (v : Value) (bd : List (String × Value))
    (h : normalize_value v = .dict bd) : v = .dict bd := by
  cases v with
  | null => simp [normalize_value] at h
  | bool b => simp [normalize_value] at h
  | int n => simp [normalize_value] at h
  | list xs => simp [normalize_value] at h
  | dict d => simpa [normalize_value] using h
  | str s =>
      simp only [normalize_value] at h
      split at h
      · simp at h
      · split at h
        · simp at h
        · split at h <;> simp_all

theorem goKeys_congr (r1 r2) (b r : List (String × Value)) (path : String) (ks : List String)
    (h : ∀ k ∈ ks, keyItems r1 b r path k = keyItems r2 b r path k) :
    goKeys r1 b r path ks = goKeys r2 b r path ks := by
  induction ks with
  | nil => rfl
  | cons k ks ih =>
      simp only [goKeys]
      rw [h k (by simp), ih (fun k hk => h k (by simp [hk]))]

theorem keyItems_congr (r1 r2) (b r : List (String × Value)) (path k : String)
    (h : ∀ bd rd p, normalize_value (dictGet b k) = .dict bd →
      normalize_value (dictGet r k) = .dict rd → r1 bd rd p = r2 bd rd p) :
    keyItems r1 b r path k = keyItems r2 b r path k := by
  unfold keyItems
  split
  · rfl
  · revert h
    generalize normalize_value (dictGet b k) = nb
    generalize normalize_value (dictGet r k) = nr
    intro h
    cases nb <;> cases nr <;>
      first
        | (simp only [compareVals]
           exact h _ _ _ rfl rfl)
        | simp only [compareVals]

theorem deepCompareFuel_congr : ∀ (f g : Nat) (b r : List (String × Value)) (path : String),
    sizeVD b + sizeVD r ≤ f → sizeVD b + sizeVD r ≤ g →
    deepCompareFuel f b r path = deepCompareFuel g b r path := by
  intro f
  induction f using Nat.strong_induction_on with
  | _ f ihf =>
    intro g b r path hf hg
    have hb := sizeVD_pos b
    have hr := sizeVD_pos r
    cases f with
    | zero => omega
    | succ f1 =>
      cases g with
      | zero => omega
      | succ g1 =>
        simp only [deepCompareFuel]
        apply goKeys_congr
        intro k _
        apply keyItems_congr
        intro bd rd p hbd hrd
        have hlb := lookup_sizeV_lt b k _ (dictGet_dict b k bd (normalize_value_dict _ _ hbd))
        have hlr := lookup_sizeV_lt r k _ (dictGet_dict r k rd (normalize_value_dict _ _ hrd))
        simp [sizeV] at hlb hlr
        have h1 : sizeVD bd + sizeVD rd ≤ f1 := by omega
        have h2 : sizeVD bd + sizeVD rd ≤ g1 := by omega
        calc deepCompareFuel f1 bd rd p
            = deepCompareFuel (sizeVD bd + sizeVD rd) bd rd p :=
              ihf f1 (by omega) _ bd rd p h1 (by omega)
          _ = deepCompareFuel g1 bd rd p :=
              ihf (sizeVD bd + sizeVD rd) (by omega) g1 bd rd p (by omega) h2

/-- The fueled embedding satisfies the source's recursion equation: the fuel
`sizeVD baseline + sizeVD running` is always sufficient, so `deep_compare`
unfolds to one pass over the key union with itself as the recursive call. -/
theorem deep_compare_unfold (b r : List (String × Value)) (path : String) :
    deep_compare b r path = goKeys deep_compare b r path (allKeys b r) := by
  unfold deep_compare
  have hb := sizeVD_pos b
  have hr := sizeVD_pos r
  rw [deepCompareFuel_congr (sizeVD b + sizeVD r) (sizeVD b + sizeVD r + 1) b r path
    (by omega) (by omega)]
  simp only [deepCompareFuel]
  apply goKeys_congr
  intro k _
  apply keyItems_congr
  intro bd rd p hbd hrd
  have hlb := lookup_sizeV_lt b k _ (dictGet_dict b k bd (normalize_value_dict _ _ hbd))
  have hlr := lookup_sizeV_lt r k _ (dictGet_dict r k rd (normalize_value_dict _ _ hrd))
  simp [sizeV] at hlb hlr
  exact deepCompareFuel_congr _ _ bd rd p (by omega) (by omega)

/-! ### Structural lemmas about the orchestrator -/

theorem match_mem (n : String) (bs : List GitBaselineConfig) (b : GitBaselineConfig)
    (h : match_container_to_baseline n bs = some b) : b ∈ bs := by
  unfold match_container_to_baseline at h
  split at h
  · next heq => cases h; exact List.mem_of_find?_eq_some heq
  · exact List.mem_of_find?_eq_some h

theorem matchedSD_shape (c : ContainerInfo) (b : GitBaselineConfig) (items : List DriftItem) :
    (matchedSD c b items).matched = true ∧ (matchedSD c b items).baseline_missing = false ∧
      (matchedSD c b items).container_missing = false ∧
      (matchedSD c b items).has_drift = !(matchedSD c b items).drift_items.isEmpty :=
  ⟨rfl, rfl, rfl, rfl⟩

theorem runningPass_length (cs : List ContainerInfo) (bs : List GitBaselineConfig)
    (m : List String) : (runningPass cs bs m).1.length = cs.length := by
  induction cs generalizing m with
  | nil => rfl
  | cons c cs ih =>
      simp only [runningPass]
      split
      · simp only [List.length_cons, ih]
      · simp only [List.length_cons, ih]

theorem runningPass_mem_shape (cs : List ContainerInfo) (bs : List GitBaselineConfig)
    (m : List String) (sd : ServiceDrift) (h : sd ∈ (runningPass cs bs m).1) :
    (sd.matched = true ∧ sd.baseline_missing = false ∧ sd.container_missing = false ∧
      sd.has_drift = !sd.drift_items.isEmpty)
    ∨ (sd.matched = false ∧ sd.baseline_missing = true ∧ sd.container_missing = false ∧
      sd.has_drift = true ∧ sd.drift_items = []) := by
  induction cs generalizing m with
  | nil => simp [runningPass] at h
  | cons c cs ih =>
      simp only [runningPass] at h
      split at h
      · rw [List.mem_cons] at h
        rcases h with h | h
        · subst h
          exact Or.inr ⟨rfl, rfl, rfl, rfl, rfl⟩
        · exact ih _ h
      · rw [List.mem_cons] at h
        rcases h with h | h
        · subst h
          exact Or.inl (matchedSD_shape _ _ _)
        · exact ih _ h

theorem missingPass_mem_shape (bs : List GitBaselineConfig) (m : List String)
    (sd : ServiceDrift) (h : sd ∈ (missingPass bs m).1) :
    sd.matched = false ∧ sd.baseline_missing = false ∧ sd.container_missing = true ∧
      sd.has_drift = true ∧ sd.drift_items = [] ∧ sd.service_name ∉ m := by
  induction bs with
  | nil => simp [missingPass] at h
  | cons b bs ih =>
      simp only [missingPass] at h
      split at h
      · exact ih h
      · next hnotin =>
          rw [List.mem_cons] at h
          rcases h with h | h
          · subst h
            exact ⟨rfl, rfl, rfl, rfl, rfl, hnotin⟩
          · exact ih h

theorem runningPass_matched_mono (cs : List ContainerInfo) (bs : List GitBaselineConfig)
    (m : List String) (x : String) (hx : x ∈ m) : x ∈ (runningPass cs bs m).2.2.2 := by
  induction cs generalizing m with
  | nil => simpa [runningPass] using hx
  | cons c cs ih =>
      simp only [runningPass]
      split
      · exact ih _ hx
      · exact ih _ (List.mem_insert_of_mem hx)

theorem runningPass_matched_of_match (cs : List ContainerInfo) (bs : List GitBaselineConfig)
    (m : List String) (c : ContainerInfo) (b : GitBaselineConfig) (hc : c ∈ cs)
    (hm : match_container_to_baseline c.name bs = some b) :
    b.name ∈ (runningPass cs bs m).2.2.2 := by
  induction cs generalizing m with
  | nil => simp at hc
  | cons c0 cs ih =>
      rw [List.mem_cons] at hc
      rcases hc with hc | hc
      · subst hc
        simp only [runningPass, hm]
        exact runningPass_matched_mono _ _ _ _ (List.mem_insert_self _ _)
      · simp only [runningPass]
        split
        · exact ih _ hc
        · exact ih _ hc

theorem runningPass_matched_nodup (cs : List ContainerInfo) (bs : List GitBaselineConfig)
    (m : List String) (hm : m.Nodup) : (runningPass cs bs m).2.2.2.Nodup := by
  induction cs generalizing m with
  | nil => simpa [runningPass] using hm
  | cons c cs ih =>
      simp only [runningPass]
      split
      · exact ih _ hm
      · exact ih _ (List.Nodup.insert hm)

theorem runningPass_matched_sub (cs : List ContainerInfo) (bs : List GitBaselineConfig)
    (m : List String) (x : String) (hx : x ∈ (runningPass cs bs m).2.2.2) :
    x ∈ m ∨ x ∈ bs.map GitBaselineConfig.name := by
  induction cs generalizing m with
  | nil => simpa [runningPass] using Or.inl hx
  | cons c cs ih =>
      simp only [runningPass] at hx
      split at hx
      · exact ih _ hx
      · next b hmatch =>
          rcases ih _ hx with hin | hin
          · rw [List.mem_insert_iff] at hin
            rcases hin with rfl | hin
            · exact Or.inr (List.mem_map_of_mem _ (match_mem _ _ _ hmatch))
            · exact Or.inl hin
          · exact Or.inr hin

theorem missingPass_length (bs : List GitBaselineConfig) (m : List String) :
    (missingPass bs m).1.length + bs.countP (fun b => decide (b.name ∈ m)) = bs.length := by
  induction bs with
  | nil => rfl
  | cons b bs ih =>
      simp only [missingPass]
      split
      · next hin =>
          simp only [List.countP_cons, decide_eq_true_eq, hin, if_true, List.length_cons]
          omega
      · next hnotin =>
          simp only [List.countP_cons, decide_eq_true_eq, hnotin, if_false, List.length_cons]
          omega

theorem countP_name_mem_eq_length (bs : List GitBaselineConfig) (m : List String)
    (hnames : (bs.map GitBaselineConfig.name).Nodup) (hm : m.Nodup)
    (hsub : ∀ x ∈ m, x ∈ bs.map GitBaselineConfig.name) :
    bs.countP (fun b => decide (b.name ∈ m)) = m.length := by
  have h1 : bs.countP (fun b => decide (b.name ∈ m))
      = (bs.map GitBaselineConfig.name).countP (fun x => decide (x ∈ m)) := by
    rw [List.countP_map]
    rfl
  rw [h1, List.countP_eq_length_filter]
  refine List.Perm.length_eq
    (List.perm_of_nodup_nodup_toFinset_eq (hnames.filter _) hm ?_)
  ext x
  simp only [List.mem_toFinset, List.mem_filter, decide_eq_true_eq]
  constructor
  · rintro ⟨_, hx⟩; exact hx
  · intro hx; exact ⟨hsub x hx, hx⟩

/-- `services_analyzed` counts the union of running and baseline services:
with duplicate-free baseline names it equals the number of `ServiceDrift`
entries, in which a matched pair appears exactly once. -/
theorem services_analyzed_eq_length (ts : String) (running : List ContainerInfo)
    (baselines : List GitBaselineConfig)
    (hnames : (baselines.map GitBaselineConfig.name).Nodup) :
    (compare_configurations ts running baselines).services_analyzed =
      (compare_configurations ts running baselines).service_drifts.length := by
  unfold compare_configurations
  simp only [List.length_append, runningPass_length]
  have hnodup : (runningPass running baselines []).2.2.2.Nodup :=
    runningPass_matched_nodup _ _ _ List.nodup_nil
  have hsub : ∀ x ∈ (runningPass running baselines []).2.2.2,
      x ∈ baselines.map GitBaselineConfig.name := by
    intro x hx
    rcases runningPass_matched_sub _ _ _ _ hx with hin | hin
    · simp at hin
    · exact hin
  have hcount := countP_name_mem_eq_length baselines _ hnames hnodup hsub
  have hmiss := missingPass_length baselines (runningPass running baselines []).2.2.2
  have hle : (runningPass running baselines []).2.2.2.length ≤ baselines.length := by
    rw [← hcount]
    exact List.countP_le_length _
  omega

/-! ### Claims -/

/-- C1 (counterexample): contrary to the claim, `compare({"image": "nginx"},
{"image": "nginx:latest"})` does NOT return an empty sequence: `deep_compare`
decides emission by direct string inequality and only consults
`compare_images` for the severity. -/
theorem C1_cex :
    deep_compare [("image", .str "nginx")] [("image", .str "nginx:latest")] "" ≠ [] := by
  decide

/-- C1 (amended): the comparison emits exactly one `DriftItem` for the image
field, with severity INFORMATIONAL (the implicit-tag equivalence surfaces
only through `compare_images`' severity; its `has_drift=False` component is
not consulted by `deep_compare`). -/
theorem C1_amended :
    deep_compare [("image", .str "nginx")] [("image", .str "nginx:latest")] "" =
      [⟨"image", .str "nginx", .str "nginx:latest", DriftSeverity.informational,
        "Field \x27image\x27 changed from \x27nginx\x27 to \x27nginx:latest\x27"⟩] := by
  decide

/-- C2: full behaviour of `compare_images`: equal strings → no drift;
otherwise split on the last `:` (missing tag defaults to `latest`);
different repositories → BREAKING; non-latest pin vs `latest` → BREAKING;
both leading major segments numeric and differing → BREAKING; any other
same-repository tag difference → FUNCTIONAL; with the four concrete
examples of the spec. -/
theorem C2_compare_images :
    (∀ s : String, compare_images s s = (false, DriftSeverity.informational))
    ∧ (∀ s : String, strContainsSub s ":" = false → parse_image s = (s, "latest"))
    ∧ parse_image "app:1.2.3" = ("app", "1.2.3")
    ∧ parse_image "a:b:c" = ("a:b", "c")
    ∧ (∀ b r : String, b ≠ r → (parse_image b).1 ≠ (parse_image r).1 →
        compare_images b r = (true, DriftSeverity.breaking))
    ∧ (∀ b r : String, b ≠ r → (parse_image b).1 = (parse_image r).1 →
        (parse_image b).2 ≠ (parse_image r).2 →
        (parse_image b).2 ≠ "latest" → (parse_image r).2 = "latest" →
        compare_images b r = (true, DriftSeverity.breaking))
    ∧ (∀ b r : String, b ≠ r → (parse_image b).1 = (parse_image r).1 →
        (parse_image b).2 ≠ (parse_image r).2 →
        ¬((parse_image b).2 ≠ "latest" ∧ (parse_image r).2 = "latest") →
        major_segment (parse_image b).2 ≠ major_segment (parse_image r).2 →
        strIsDigit (major_segment (parse_image b).2) = true →
        strIsDigit (major_segment (parse_image r).2) = true →
        compare_images b r = (true, DriftSeverity.breaking))
    ∧ (∀ b r : String, b ≠ r → (parse_image b).1 = (parse_image r).1 →
        (parse_image b).2 ≠ (parse_image r).2 →
        ¬((parse_image b).2 ≠ "latest" ∧ (parse_image r).2 = "latest") →
        ¬(major_segment (parse_image b).2 ≠ major_segment (parse_image r).2 ∧
          strIsDigit (major_segment (parse_image b).2) = true ∧
          strIsDigit (major_segment (parse_image r).2) = true) →
        compare_images b r = (true, DriftSeverity.functional))
    ∧ compare_images "app:1.2.3" "app:2.0.0" = (true, DriftSeverity.breaking)
    ∧ compare_images "app:1.2.3" "app:1.2.4" = (true, DriftSeverity.functional)
    ∧ compare_images "app:1.0" "app:latest" = (true, DriftSeverity.breaking)
    ∧ compare_images "app:1.0" "other:1.0" = (true, DriftSeverity.breaking) := by
  refine ⟨?_, ?_, by decide, by decide, ?_, ?_, ?_, ?_, by decide, by decide, by decide, by decide⟩
  · intro s
    simp [compare_images]
  · intro s h
    simp [parse_image, h]
  · intro b r hbr hname
    unfold compare_images
    dsimp only
    repeat' split
    all_goals first | rfl | tauto
  · intro b r hbr hname htag hblat hrlat
    unfold compare_images
    dsimp only
    repeat' split
    all_goals first | rfl | tauto
  · intro b r hbr hname htag hlat hmaj hdb hdr
    unfold compare_images
    dsimp only
    repeat' split
    all_goals first | rfl | tauto
  · intro b r hbr hname htag hlat hmaj
    unfold compare_images
    dsimp only
    repeat' split
    all_goals first | rfl | tauto

/-- C2 witness: the pin-vs-latest clause applied at `("app:1.0", "app:latest")`. -/
theorem C2_witness : compare_images "app:1.0" "app:latest" = (true, DriftSeverity.breaking) :=
  C2_compare_images.2.2.2.2.2.1 "app:1.0" "app:latest" (by decide) (by decide) (by decide)
    (by decide) (by decide)

/-- C8: `compare(x, x)` returns the empty sequence for every configuration
record `x` (at every path), by reflexivity of the structural diff. -/
theorem C8_idempotence (x : List (String × Value)) (path : String) :
    deep_compare x x path = [] :=
  deepCompareFuel_self _ x path

/-- C9: for `a ≠ b`, `compare(a, b)` is non-empty iff `compare(b, a)` is
non-empty (symmetry of drift detection, not of item content). -/
theorem C9_detection_symmetry (a b : List (String × Value)) (path : String) (_hab : a ≠ b) :
    deep_compare a b path ≠ [] ↔ deep_compare b a path ≠ [] := by
  have h := deep_compare_length_symm a b path
  constructor
  · intro hne hcon
    rw [hcon] at h
    exact hne (List.length_eq_zero.mp h)
  · intro hne hcon
    rw [hcon] at h
    exact hne (List.length_eq_zero.mp h.symm)

/-- C9 witness: the symmetry theorem applied at concrete distinct records. -/
theorem C9_witness :
    deep_compare [("image", Value.str "a")] [] "" ≠ [] ↔
      deep_compare [] [("image", Value.str "a")] "" ≠ [] :=
  C9_detection_symmetry [("image", Value.str "a")] [] "" (by decide)

/-- The pihole baseline of the spec's matching example: `name="pihole"`,
`stack_name="dns-pihole"`. -/
def piholeBaseline : GitBaselineConfig :=
  ⟨"pihole", "pihole/pihole:2024.07.0", [], .list [], [], [], [],
    "dns-pihole", "stacks/dns-pihole/docker-compose.yml"⟩

/-- C4: `match_container_to_baseline` matches iff the names are exactly
equal or the running name is `stack_name ++ "_"` followed exactly by the
baseline name; `"dns-pihole_pihole"` matches the pihole baseline and
`"pihole-2"` does not. -/
theorem C4_matching_rule :
    (∀ (container_name : String) (baselines : List GitBaselineConfig) (b : GitBaselineConfig),
      match_container_to_baseline container_name baselines = some b →
        b ∈ baselines ∧ (b.name = container_name ∨
          (strStarts container_name (b.stack_name ++ "_") = true ∧
            strDropChars container_name (b.stack_name.length + 1) = b.name)))
    ∧ (∀ (container_name : String) (baselines : List GitBaselineConfig),
        (match_container_to_baseline container_name baselines).isSome ↔
          ∃ b ∈ baselines, b.name = container_name ∨
            (strStarts container_name (b.stack_name ++ "_") = true ∧
              strDropChars container_name (b.stack_name.length + 1) = b.name))
    ∧ match_container_to_baseline "dns-pihole_pihole" [piholeBaseline] = some piholeBaseline
    ∧ match_container_to_baseline "pihole-2" [piholeBaseline] = none := by
  refine ⟨?_, ?_, by decide, by decide⟩
  · intro cn bs b h
    unfold match_container_to_baseline at h
    split at h
    · next heq =>
        cases h
        refine ⟨List.mem_of_find?_eq_some heq, Or.inl ?_⟩
        have := List.find?_some heq
        exact beq_iff_eq.mp this
    · refine ⟨List.mem_of_find?_eq_some h, Or.inr ?_⟩
      have := List.find?_some h
      unfold stack_prefix_match at this
      rw [Bool.and_eq_true] at this
      exact ⟨this.1, beq_iff_eq.mp this.2⟩
  · intro cn bs
    unfold match_container_to_baseline
    cases hfind : bs.find? (fun b => b.name == cn) with
    | some b =>
        simp only [Option.isSome_some, true_iff]
        have hp := List.find?_some hfind
        exact ⟨b, List.mem_of_find?_eq_some hfind, Or.inl (beq_iff_eq.mp hp)⟩
    | none =>
        rw [List.find?_isSome]
        have hno : ∀ b ∈ bs, ¬(b.name = cn) := by
          intro b hb
          have := List.find?_eq_none.mp hfind b hb
          simpa using this
        constructor
        · rintro ⟨b, hb, hp⟩
          unfold stack_prefix_match at hp
          rw [Bool.and_eq_true] at hp
          exact ⟨b, hb, Or.inr ⟨hp.1, beq_iff_eq.mp hp.2⟩⟩
        · rintro ⟨b, hb, hcase | ⟨h1, h2⟩⟩
          · exact absurd hcase (hno b hb)
          · refine ⟨b, hb, ?_⟩
            unfold stack_prefix_match
            rw [Bool.and_eq_true]
            exact ⟨h1, beq_iff_eq.mpr h2⟩

/-- C4 witness: the characterization applied at the exact-name match
`"pihole"` against the pihole baseline. -/
theorem C4_witness :
    piholeBaseline ∈ [piholeBaseline] ∧ (piholeBaseline.name = "pihole" ∨
      (strStarts "pihole" (piholeBaseline.stack_name ++ "_") = true ∧
        strDropChars "pihole" (piholeBaseline.stack_name.length + 1) = piholeBaseline.name)) :=
  C4_matching_rule.1 "pihole" [piholeBaseline] piholeBaseline (by decide)

/-- C5 (counterexample): the claim classifies every non-traefik label as
COSMETIC, but the path `labels.ports` — a label whose key `ports` has no
traefik prefix — classifies as FUNCTIONAL, because the source checks the
`ports`/`volumes`/`mounts`/`networks` substring rules before the label
rule. -/
theorem C5_cex :
    classify_field_severity "labels.ports" (.str "a") (.str "b") = DriftSeverity.functional ∧
      classify_field_severity "labels.ports" (.str "a") (.str "b") ≠ DriftSeverity.cosmetic ∧
      strStarts "labels.ports" "labels." = true ∧
      strStarts (strAfterFirst "labels.ports" '.') "traefik.http.routers" = false ∧
      strStarts (strAfterFirst "labels.ports" '.') "traefik.http.services" = false := by
  decide

/-- C5 (amended): the severity classification, with the source's precedence:
environment rules first, then the `ports`/`volumes`/`mounts`/`networks`
substring rules, then the label rules (which therefore only govern label
paths containing none of those substrings), then the FUNCTIONAL default. -/
theorem C5_amended :
    (∀ (p : String) (bv rv : Value), strStarts p "environment." = true →
      (critical_env_vars.any fun critical => strStarts (strAfterFirst p '.') critical) = true →
      classify_field_severity p bv rv = DriftSeverity.breaking)
    ∧ (∀ (p : String) (bv rv : Value), strStarts p "environment." = true →
      (critical_env_vars.any fun critical => strStarts (strAfterFirst p '.') critical) = false →
      classify_field_severity p bv rv = DriftSeverity.functional)
    ∧ (∀ (p : String) (bv rv : Value), strStarts p "environment." = false →
      (strContainsSub p "ports" = true ∨ strContainsSub p "volumes" = true ∨
        strContainsSub p "mounts" = true ∨ strContainsSub p "networks" = true) →
      classify_field_severity p bv rv = DriftSeverity.functional)
    ∧ (∀ (p : String) (bv rv : Value), strStarts p "environment." = false →
      strContainsSub p "ports" = false → strContainsSub p "volumes" = false →
      strContainsSub p "mounts" = false → strContainsSub p "networks" = false →
      strStarts p "labels." = true →
      (strStarts (strAfterFirst p '.') "traefik.http.routers" = true ∨
        strStarts (strAfterFirst p '.') "traefik.http.services" = true) →
      classify_field_severity p bv rv = DriftSeverity.functional)
    ∧ (∀ (p : String) (bv rv : Value), strStarts p "environment." = false →
      strContainsSub p "ports" = false → strContainsSub p "volumes" = false →
      strContainsSub p "mounts" = false → strContainsSub p "networks" = false →
      strStarts p "labels." = true →
      strStarts (strAfterFirst p '.') "traefik.http.routers" = false →
      strStarts (strAfterFirst p '.') "traefik.http.services" = false →
      classify_field_severity p bv rv = DriftSeverity.cosmetic)
    ∧ (∀ (p : String) (bv rv : Value), p ≠ "image" → strStarts p "environment." = false →
      strContainsSub p "ports" = false → strContainsSub p "volumes" = false →
      strContainsSub p "mounts" = false → strContainsSub p "networks" = false →
      strStarts p "labels." = false →
      classify_field_severity p bv rv = DriftSeverity.functional) := by
  refine ⟨?_, ?_, ?_, ?_, ?_, ?_⟩
  · intro p bv rv henv hcrit
    have himg : p ≠ "image" := by
      rintro rfl
      exact absurd henv (by decide)
    unfold classify_field_severity
    dsimp only
    rw [if_neg himg, if_pos henv, if_pos hcrit]
  · intro p bv rv henv hcrit
    have himg : p ≠ "image" := by
      rintro rfl
      exact absurd henv (by decide)
    unfold classify_field_severity
    dsimp only
    rw [if_neg himg, if_pos henv, if_neg (by simp [hcrit])]
  · intro p bv rv henv hsub
    have himg : p ≠ "image" := by
      rintro rfl
      rcases hsub with h | h | h | h <;> exact absurd h (by decide)
    unfold classify_field_severity
    dsimp only
    rw [if_neg himg, if_neg (by simp [henv])]
    rcases h4 : strContainsSub p "ports" with _ | _
    · rw [if_neg (by simp [h4])]
      rcases h5 : strContainsSub p "volumes" with _ | _
      · rcases h6 : strContainsSub p "mounts" with _ | _
        · rw [if_neg (by simp [h5, h6])]
          have h7 : strContainsSub p "networks" = true := by simp_all
          rw [if_pos (by simp [h7])]
        · rw [if_pos (by simp [h6])]
      · rw [if_pos (by simp [h5])]
    · rw [if_pos (by simp [h4])]
  · intro p bv rv henv h1 h2 h3 h4 hlab htr
    have himg : p ≠ "image" := by
      rintro rfl
      exact absurd hlab (by decide)
    unfold classify_field_severity
    dsimp only
    rw [if_neg himg, if_neg (by simp [henv]), if_neg (by simp [h1]),
      if_neg (by simp [h2, h3]), if_neg (by simp [h4]), if_pos hlab,
      if_pos (by rcases htr with h | h <;> simp [h])]
  · intro p bv rv henv h1 h2 h3 h4 hlab htr hts
    have himg : p ≠ "image" := by
      rintro rfl
      exact absurd hlab (by decide)
    unfold classify_field_severity
    dsimp only
    rw [if_neg himg, if_neg (by simp [henv]), if_neg (by simp [h1]),
      if_neg (by simp [h2, h3]), if_neg (by simp [h4]), if_pos hlab,
      if_neg (by simp [htr, hts])]
  · intro p bv rv himg henv h1 h2 h3 h4 hlab
    unfold classify_field_severity
    dsimp only
    rw [if_neg himg, if_neg (by simp [henv]), if_neg (by simp [h1]),
      if_neg (by simp [h2, h3]), if_neg (by simp [h4]), if_neg (by simp [hlab])]

/-- C5 witness: the critical-environment clause applied at
`environment.DATABASE_URL`. -/
theorem C5_witness :
    classify_field_severity "environment.DATABASE_URL" (.str "a") (.str "b") =
      DriftSeverity.breaking :=
  C5_amended.1 "environment.DATABASE_URL" (.str "a") (.str "b") (by decide) (by decide)

/-- C7: every `ServiceDrift` the orchestrator produces is in exactly one of
the three states matched / baseline_missing / container_missing, and
`has_drift` holds iff drift items are non-empty or the match failed. -/
theorem C7_servicedrift_invariant (ts : String) (running : List ContainerInfo)
    (baselines : List GitBaselineConfig) (sd : ServiceDrift)
    (hsd : sd ∈ (compare_configurations ts running baselines).service_drifts) :
    ((sd.matched = true ∧ sd.baseline_missing = false ∧ sd.container_missing = false)
      ∨ (sd.matched = false ∧ sd.baseline_missing = true ∧ sd.container_missing = false)
      ∨ (sd.matched = false ∧ sd.baseline_missing = false ∧ sd.container_missing = true))
    ∧ (sd.has_drift = true ↔
        sd.drift_items ≠ [] ∨ sd.baseline_missing = true ∨ sd.container_missing = true) := by
  unfold compare_configurations at hsd
  dsimp only at hsd
  rw [List.mem_append] at hsd
  rcases hsd with h | h
  · rcases runningPass_mem_shape _ _ _ _ h with ⟨hm, hbm, hcm, hhd⟩ | ⟨hm, hbm, hcm, hhd, hitems⟩
    · refine ⟨Or.inl ⟨hm, hbm, hcm⟩, ?_⟩
      rw [hhd, hbm, hcm]
      simp
    · refine ⟨Or.inr (Or.inl ⟨hm, hbm, hcm⟩), ?_⟩
      rw [hhd, hbm, hitems]
      simp
  · obtain ⟨hm, hbm, hcm, hhd, hitems, -⟩ := missingPass_mem_shape _ _ _ h
    refine ⟨Or.inr (Or.inr ⟨hm, hbm, hcm⟩), ?_⟩
    rw [hhd, hcm, hitems]
    simp

/-- The single baseline of the C6 counterexample scenario: name `b`,
stack `s`. -/
def c6_baseline : GitBaselineConfig :=
  ⟨"b", "nginx:1.0", [], .list [], [], [], [], "s", "stacks/s/docker-compose.yml"⟩

/-- A running container whose name `b` matches `c6_baseline` exactly. -/
def c6_exact : ContainerInfo :=
  ⟨"aaaabbbbccccdddd", "b", "nginx:1.0", "running", [], .list [], [], [], .dict [],
    "2024-01-01", none⟩

/-- A running container whose name `s_b` matches `c6_baseline` by the
stack-prefix rule. -/
def c6_prefixed : ContainerInfo :=
  ⟨"eeeeffffgggghhhh", "s_b", "nginx:1.0", "running", [], .list [], [], [], .dict [],
    "2024-01-02", none⟩

/-- C6 (counterexample): both running containers match the single baseline,
so one baseline appears in two matched `ServiceDrift` entries — refuting
"each baseline is matched by at most one running record". -/
theorem C6_cex :
    (compare_configurations "ts" [c6_exact, c6_prefixed] [c6_baseline]).service_drifts.countP
        (fun sd => sd.matched) = 2
    ∧ [c6_baseline].length = 1
    ∧ match_container_to_baseline c6_exact.name [c6_baseline] = some c6_baseline
    ∧ match_container_to_baseline c6_prefixed.name [c6_baseline] = some c6_baseline
    ∧ (compare_configurations "ts" [c6_exact, c6_prefixed] [c6_baseline]).service_drifts.countP
        (fun sd => sd.container_missing) = 0 := by
  decide

/-- C6 (amended): the scan does not exclude already-matched baselines, so a
baseline may be matched by several running records; but a baseline matched
by at least one running record never appears as a `container_missing`
entry. -/
theorem C6_amended (ts : String) (running : List ContainerInfo)
    (baselines : List GitBaselineConfig) (b : GitBaselineConfig) (c : ContainerInfo)
    (hc : c ∈ running) (hm : match_container_to_baseline c.name baselines = some b)
    (sd : ServiceDrift)
    (hsd : sd ∈ (compare_configurations ts running baselines).service_drifts) :
    ¬(sd.container_missing = true ∧ sd.service_name = b.name) := by
  rintro ⟨hcm, hname⟩
  unfold compare_configurations at hsd
  dsimp only at hsd
  rw [List.mem_append] at hsd
  rcases hsd with h | h
  · rcases runningPass_mem_shape _ _ _ _ h with ⟨-, -, hcm2, -⟩ | ⟨-, -, hcm2, -, -⟩ <;>
      exact absurd hcm (by rw [hcm2]; simp)
  · obtain ⟨-, -, -, -, -, hnotin⟩ := missingPass_mem_shape _ _ _ h
    rw [hname] at hnotin
    exact hnotin (runningPass_matched_of_match _ _ _ _ _ hc hm)

/-- C6 amended witness: the matched entry of a one-container run is not a
`container_missing` entry for the matched baseline. -/
theorem C6_amended_witness :
    ¬((matchedSD c6_exact c6_baseline
        (deep_compare c6_baseline.to_dict c6_exact.to_dict "")).container_missing = true ∧
      (matchedSD c6_exact c6_baseline
        (deep_compare c6_baseline.to_dict c6_exact.to_dict "")).service_name = c6_baseline.name) :=
  C6_amended "ts" [c6_exact] [c6_baseline] c6_baseline c6_exact (by decide) (by decide)
    _ (by with_unfolding_all decide)

/-- C3: running containers `{A, B}` against baselines `{B, C}` (distinct
names, no stack-prefix relation) produce: a `baseline_missing` entry for A
with no drift items, a matched entry for B whose items come from the
Comparator, a `container_missing` entry for C, and `services_analyzed = 3`;
in general `services_analyzed` counts the union of running and baseline
services (a matched pair counting once). -/
theorem C3_orphan_missing (ts : String) (ca cb : ContainerInfo) (bB bC : GitBaselineConfig)
    (hA_B : ca.name ≠ bB.name) (hA_C : ca.name ≠ bC.name)
    (hpA_B : stack_prefix_match ca.name bB = false)
    (hpA_C : stack_prefix_match ca.name bC = false)
    (hB : cb.name = bB.name)
    (hC_B : bC.name ≠ bB.name) :
    (compare_configurations ts [ca, cb] [bB, bC]).service_drifts =
      [baselineMissingSD ca,
        matchedSD cb bB (deep_compare bB.to_dict cb.to_dict ""),
        containerMissingSD bC]
    ∧ (compare_configurations ts [ca, cb] [bB, bC]).services_analyzed = 3
    ∧ (baselineMissingSD ca).baseline_missing = true
    ∧ (baselineMissingSD ca).matched = false
    ∧ (baselineMissingSD ca).drift_items = []
    ∧ (matchedSD cb bB (deep_compare bB.to_dict cb.to_dict "")).matched = true
    ∧ (containerMissingSD bC).container_missing = true
    ∧ (containerMissingSD bC).matched = false
    ∧ (∀ (ts2 : String) (running : List ContainerInfo) (baselines : List GitBaselineConfig),
        (baselines.map GitBaselineConfig.name).Nodup →
        (compare_configurations ts2 running baselines).services_analyzed =
          (compare_configurations ts2 running baselines).service_drifts.length) := by
  have e1 : (bB.name == ca.name) = false := beq_eq_false_iff_ne.mpr (Ne.symm hA_B)
  have e2 : (bC.name == ca.name) = false := beq_eq_false_iff_ne.mpr (Ne.symm hA_C)
  have e3 : (bB.name == cb.name) = true := beq_iff_eq.mpr hB.symm
  have hmA : match_container_to_baseline ca.name [bB, bC] = none := by
    unfold match_container_to_baseline
    simp only [List.find?, e1, e2, hpA_B, hpA_C]
  have hmB : match_container_to_baseline cb.name [bB, bC] = some bB := by
    unfold match_container_to_baseline
    simp only [List.find?, e3]
  have h1 : (runningPass [ca, cb] [bB, bC] []).1 =
      [baselineMissingSD ca, matchedSD cb bB (deep_compare bB.to_dict cb.to_dict "")] := by
    simp only [runningPass, hmA, hmB]
  have h2 : (runningPass [ca, cb] [bB, bC] []).2.2.2 = [bB.name] := by
    simp only [runningPass, hmA, hmB]
    rfl
  have h3 : (missingPass [bB, bC] [bB.name]).1 = [containerMissingSD bC] := by
    simp only [missingPass]
    rw [if_pos (List.mem_singleton_self bB.name), if_neg (by simp [hC_B])]
  refine ⟨?_, ?_, rfl, rfl, rfl, rfl, rfl, rfl,
    fun ts2 running baselines h => services_analyzed_eq_length ts2 running baselines h⟩
  · unfold compare_configurations
    dsimp only
    rw [h2, h1, h3]
    rfl
  · unfold compare_configurations
    dsimp only
    rw [h2]
    rfl

/-- Concrete orphan container A for the C3 witness (name `alpha`). -/
def c3A : ContainerInfo :=
  ⟨"1111222233334444", "alpha", "img-a:1.0", "running", [], .list [], [], [], .dict [],
    "2024-01-01", none⟩

/-- Concrete matched container B for the C3 witness (name `beta`). -/
def c3B : ContainerInfo :=
  ⟨"5555666677778888", "beta", "img-b:1.0", "running", [], .list [], [], [], .dict [],
    "2024-01-02", none⟩

/-- Concrete baseline B for the C3 witness (name `beta`, stack `sb`). -/
def c3Bb : GitBaselineConfig :=
  ⟨"beta", "img-b:1.0", [], .list [], [], [], [], "sb", "stacks/sb/docker-compose.yml"⟩

/-- Concrete ghost baseline C for the C3 witness (name `gamma`, stack `sc`). -/
def c3Cb : GitBaselineConfig :=
  ⟨"gamma", "img-c:1.0", [], .list [], [], [], [], "sc", "stacks/sc/docker-compose.yml"⟩

/-- C3 witness: the scenario theorem applied to concrete records;
`services_analyzed = 3`. -/
theorem C3_witness :
    (compare_configurations "ts" [c3A, c3B] [c3Bb, c3Cb]).services_analyzed = 3 :=
  (C3_orphan_missing "ts" c3A c3B c3Bb c3Cb (by decide) (by decide) (by decide) (by decide)
    (by decide) (by decide)).2.1

/-- C7 witness: the invariant applied to the `baseline_missing` entry of a
concrete run with no baselines. -/
theorem C7_witness :
    (((baselineMissingSD c6_exact).matched = true ∧
        (baselineMissingSD c6_exact).baseline_missing = false ∧
        (baselineMissingSD c6_exact).container_missing = false)
      ∨ ((baselineMissingSD c6_exact).matched = false ∧
        (baselineMissingSD c6_exact).baseline_missing = true ∧
        (baselineMissingSD c6_exact).container_missing = false)
      ∨ ((baselineMissingSD c6_exact).matched = false ∧
        (baselineMissingSD c6_exact).baseline_missing = false ∧
        (baselineMissingSD c6_exact).container_missing = true))
    ∧ ((baselineMissingSD c6_exact).has_drift = true ↔
        (baselineMissingSD c6_exact).drift_items ≠ [] ∨
        (baselineMissingSD c6_exact).baseline_missing = true ∨
        (baselineMissingSD c6_exact).container_missing = true) :=
  C7_servicedrift_invariant "ts" [c6_exact] [] (baselineMissingSD c6_exact) (by decide)

end DriftDetection

